import Mathlib

/-!
Verification of the pest-typed PEG execution engine against its
natural-language specification.

The repository ships two generations of the engine:

* the older flat module `src/main/src/predefined_node.rs`, whose nodes have
  `fn try_parse_with<const ATOMIC: bool, Rule>(input, stack) -> Result<(Position, Self), Tracker>`
  (the tracker is carried in the error value), embedded below under the
  `Old` namespace;
* the newer module `src/main/src/predefined_node/mod.rs` together with
  `src/main/src/typed_node.rs`, whose nodes have
  `fn try_parse_with(input, stack, tracker) -> Option<(Position, Self)>`
  (the tracker is threaded by mutable reference), embedded below under the
  `New` namespace.

Support modules (`position.rs`, `span.rs`, `stack.rs`, `tracker.rs`,
`parser_state.rs`) are not part of the sources; the corresponding
definitions are modelled from the specification and are marked as such in
their doc comments.

Inputs are modelled as `List Char` and positions as character offsets into
that list (the Rust code uses byte offsets into UTF-8 strings; over the
inputs considered here the two coincide up to reindexing).
-/

/-- Modelled from the spec: `span.rs` is not under `src/`. A span is an
immutable (start, end) range into the single shared input buffer (§3);
the buffer itself is passed separately wherever the covered text is read. -/
structure Span where
  start : Nat
  stop : Nat
deriving DecidableEq, Repr

/-- Covered substring of a span (`Span::as_str`), given the shared buffer. -/
def spanStr (s : List Char) (sp : Span) : List Char :=
  (s.drop sp.start).take (sp.stop - sp.start)

/-- Modelled from the spec: `position.rs` is not under `src/`.
`Position::match_string` tests whether the remaining input starts with the
literal (§4.1); on success the caller advances by the literal's length. -/
def matchString (s : List Char) (pos : Nat) (lit : List Char) : Bool :=
  lit.isPrefixOf (s.drop pos)

/-- Modelled from the spec: `position.rs` is not under `src/`.
Case-insensitive prefix test used by `Position::match_insensitive` (§4.1). -/
def insensPrefix : List Char → List Char → Bool
  | [], _ => true
  | _ :: _, [] => false
  | l :: ls, r :: rs => (l.toLower == r.toLower) && insensPrefix ls rs

/-- Modelled from the spec: `stack.rs` is not under `src/`. The
backreference stack is an ordered sequence of spans (index 0 is the bottom,
pushes append at the tail, §4.2) plus a list of snapshot markers enabling
nested transactions (§3). Per §4.2 restore gives the transactional wrappers
their all-or-nothing effect on backreferences, so a marker remembers the
entry list at snapshot time and `restore` reverts to exactly that content. -/
structure Stack where
  entries : List Span
  snapshots : List (List Span)
deriving DecidableEq, Repr

/-- Push a span at the tail (top) of the stack. -/
def Stack.push (st : Stack) (sp : Span) : Stack :=
  { st with entries := st.entries ++ [sp] }

/-- Pop the top span, if any, returning it together with the shrunk stack. -/
def Stack.pop (st : Stack) : Option Span × Stack :=
  match st.entries.getLast? with
  | none => (none, st)
  | some x => (some x, { st with entries := st.entries.dropLast })

/-- Read the top span without removing it. -/
def Stack.peek (st : Stack) : Option Span :=
  st.entries.getLast?

/-- Number of entries on the stack. -/
def Stack.len (st : Stack) : Nat :=
  st.entries.length

/-- Record a snapshot marker (§3 `snapshot()`). -/
def Stack.snapshot (st : Stack) : Stack :=
  { st with snapshots := st.entries :: st.snapshots }

/-- Roll back to the most recent snapshot marker, consuming it (§3
`restore()`). Restoring with no marker is a programming error per §3; it is
modelled as a no-op and never reached by the combinators below. -/
def Stack.restore (st : Stack) : Stack :=
  match st.snapshots with
  | [] => st
  | e :: rest => ⟨e, rest⟩

/-- Drop the most recent snapshot marker without rolling back (§3
`clear_snapshot()`). -/
def Stack.clearSnapshot (st : Stack) : Stack :=
  { st with snapshots := st.snapshots.tail }

/-- Slice of the entries with bottom-based indices `a ≤ i < b`,
as `stack[a..b]` on the underlying vector. -/
def Stack.slice (st : Stack) (a b : Nat) : List Span :=
  (st.entries.drop a).take (b - a)

/-- Modelled from the spec: `parser_state.rs` (`constrain_idxs`) is not
under `src/`. Resolution of one signed index against the current stack
length (§4.2): a non-negative index stands for itself and must not exceed
the length; a negative index counts back from the top; anything else is
unresolvable. -/
def normIdx (i : Int) (len : Nat) : Option Nat :=
  if 0 ≤ i then
    if i ≤ (len : Int) then some i.toNat else none
  else
    if 0 ≤ (len : Int) + i then some ((len : Int) + i).toNat else none

/-- Modelled from the spec: `parser_state.rs` (`constrain_idxs`) is not
under `src/`. Resolves a signed start/end pair to a contiguous index range
against the current length; `none` as end means "to the top" (§4.2). -/
def constrainIdxs (start : Int) (stop : Option Int) (len : Nat) :
    Option (Nat × Nat) :=
  match normIdx start len with
  | none => none
  | some a =>
    match stop with
    | none => some (a, len)
    | some e =>
      match normIdx e len with
      | none => none
      | some b => some (a, b)

/-- Mode under which a failure is recorded: ordinary, or inside a
positive/negative lookahead (§4.3 `run_positive` / `run_negative`). -/
inductive TMode where
  | ordinary
  | positive
  | negative
deriving DecidableEq, Repr

/-- Expected-label taxonomy of the failure tracker (§4.3, §7). The
`expectedLiteral` variant is the label the spec attributes to failed
literal matchers. -/
inductive NLabel where
  | expectedLiteral (lit : List Char)
  | emptyStack
  | outOfBound (start : Int) (stop : Option Int)
  | repeatTooMany
deriving DecidableEq, Repr

/-- Modelled from the spec: `tracker.rs` is not under `src/`. The tracker
accumulates the furthest-reached failure offset and the labels recorded at
that offset, each tagged with the mode active when it was recorded (§3,
§4.3). -/
structure TrackerN where
  pos : Nat
  labels : List (TMode × NLabel)
  mode : TMode
deriving DecidableEq, Repr

/-- Fresh tracker at a starting position with no labels. -/
def TrackerN.new (p : Nat) : TrackerN :=
  ⟨p, [], .ordinary⟩

/-- Record a failure label at a position (§3): a strictly further failure
replaces all prior state, an equally far one accumulates, a nearer one is
silently discarded. -/
def TrackerN.record (t : TrackerN) (p : Nat) (l : NLabel) : TrackerN :=
  if t.pos < p then { t with pos := p, labels := [(t.mode, l)] }
  else if p = t.pos then { t with labels := t.labels ++ [(t.mode, l)] }
  else t

/-- Record an empty-stack failure (`Tracker::empty_stack`). -/
def TrackerN.emptyStack (t : TrackerN) (p : Nat) : TrackerN :=
  t.record p .emptyStack

/-- Record a slice-out-of-bound failure (`Tracker::out_of_bound`). -/
def TrackerN.outOfBound (t : TrackerN) (p : Nat) (a : Int) (b : Option Int) :
    TrackerN :=
  t.record p (.outOfBound a b)

/-- A matcher of the newer engine generation: `TypedNode::try_parse_with`
from `typed_node.rs` takes the input, the position, the backreference stack
and the tracker (both mutable), and returns an optional (new position,
node) pair; the possibly mutated stack and tracker are returned alongside. -/
abbrev MatcherN (α : Type) : Type :=
  List Char → Nat → Stack → TrackerN → Option (Nat × α) × Stack × TrackerN

/-- Embedding of `Str::try_parse_with` (`predefined_node/mod.rs`): match the
constant literal case-sensitively; on failure return `None` leaving stack
and tracker untouched. -/
def New.Str (lit : List Char) : MatcherN Unit := fun s pos st t =>
  if matchString s pos lit then (some (pos + lit.length, ()), st, t)
  else (none, st, t)

/-- Embedding of `Insens::try_parse_with` (`predefined_node/mod.rs`): match
the constant literal case-insensitively, the node content being the
actually matched slice; on failure return `None` leaving stack and tracker
untouched. -/
def New.Insens (lit : List Char) : MatcherN (List Char) := fun s pos st t =>
  if insensPrefix lit (s.drop pos) then
    (some (pos + lit.length, (s.drop pos).take lit.length), st, t)
  else (none, st, t)

/-- Embedding of the position-advancing loop of `peek_spans`
(`predefined_node/mod.rs`): match each span's text in iteration order,
accumulating the position. -/
def New.peekSpansGo (s : List Char) : Nat → List Span → Option Nat
  | pos, [] => some pos
  | pos, sp :: rest =>
    if matchString s pos (spanStr s sp) then
      New.peekSpansGo s (pos + (spanStr s sp).length) rest
    else none

/-- Embedding of `peek_spans` (`predefined_node/mod.rs`): match a sequence
of spans against the input, consuming it, and return the covered span. The
tracker parameter of the source is unused there and hence omitted. -/
def New.peekSpans (s : List Char) (pos : Nat) (spans : List Span) :
    Option (Nat × Span) :=
  (New.peekSpansGo s pos spans).map (fun p => (p, ⟨pos, p⟩))

/-- Embedding of `stack_slice` (`predefined_node/mod.rs`): resolve the
signed indices via `constrain_idxs`; an unresolvable range records an
out-of-bound failure; a range with `end ≤ start` yields the empty
sequence before any indexing. -/
def New.stackSlice (pos : Nat) (start : Int) (stop : Option Int)
    (st : Stack) (t : TrackerN) : Option (List Span) × TrackerN :=
  match constrainIdxs start stop st.len with
  | none => (none, t.outOfBound pos start stop)
  | some (a, b) =>
    if b ≤ a then (some [], t) else (some (st.slice a b), t)

/-- Embedding of `PeekSlice1::try_parse_with` (`predefined_node/mod.rs`):
match the resolved `[START..]` sub-range of the stack against the input. -/
def New.PeekSlice1 (start : Int) : MatcherN Unit := fun s pos st t =>
  match New.stackSlice pos start none st t with
  | (none, t') => (none, st, t')
  | (some spans, t') =>
    match New.peekSpans s pos spans with
    | none => (none, st, t')
    | some (p, _) => (some (p, ()), st, t')

/-- Embedding of `PeekSlice2::try_parse_with` (`predefined_node/mod.rs`):
match the resolved `[START..END]` sub-range of the stack against the input. -/
def New.PeekSlice2 (start stop : Int) : MatcherN Unit := fun s pos st t =>
  match New.stackSlice pos start (some stop) st t with
  | (none, t') => (none, st, t')
  | (some spans, t') =>
    match New.peekSpans s pos spans with
    | none => (none, st, t')
    | some (p, _) => (some (p, ()), st, t')

/-- Embedding of `PEEK_ALL::try_parse_with` (`predefined_node/mod.rs`):
match all stack entries reversed (most recently pushed first). -/
def New.PEEK_ALL : MatcherN Span := fun s pos st t =>
  match New.peekSpans s pos ((st.slice 0 st.len).reverse) with
  | none => (none, st, t)
  | some (p, sp) => (some (p, sp), st, t)

/-- Embedding of `PEEK::try_parse_with` (`predefined_node/mod.rs`): match
the top entry's text without removing it; an empty stack records an
empty-stack failure. -/
def New.PEEK : MatcherN Span := fun s pos st t =>
  match st.peek with
  | some sp =>
    if matchString s pos (spanStr s sp) then
      (some (pos + (spanStr s sp).length, ⟨pos, pos + (spanStr s sp).length⟩), st, t)
    else (none, st, t)
  | none => (none, st, t.emptyStack pos)

/-- Embedding of `POP::try_parse_with` (`predefined_node/mod.rs`): pop the
top entry and match its text; an empty stack records an empty-stack
failure. -/
def New.POP : MatcherN Span := fun s pos st t =>
  match st.pop with
  | (some sp, st') =>
    if matchString s pos (spanStr s sp) then
      (some (pos + (spanStr s sp).length, sp), st', t)
    else (none, st', t)
  | (none, st') => (none, st', t.emptyStack pos)

/-- Embedding of `POP_ALL::try_parse_with` (`predefined_node/mod.rs`):
match as `PEEK_ALL`, then pop every remaining entry. -/
def New.POP_ALL : MatcherN Span := fun s pos st t =>
  match New.PEEK_ALL s pos st t with
  | (none, st', t') => (none, st', t')
  | (some (p, sp), st', t') => (some (p, sp), { st' with entries := [] }, t')

/-- Embedding of `DROP::try_parse_with` (`predefined_node/mod.rs`): pop and
discard the top entry; an empty stack records an empty-stack failure. -/
def New.DROP : MatcherN Unit := fun _ pos st t =>
  match st.pop with
  | (some _, st') => (some (pos, ()), st', t)
  | (none, st') => (none, st', t.emptyStack pos)

/-- Embedding of `Push::try_parse_with` (`predefined_node/mod.rs`): run the
inner matcher and push the span it consumed. -/
def New.Push {α : Type} (T : MatcherN α) : MatcherN α := fun s pos st t =>
  match T s pos st t with
  | (none, st', t') => (none, st', t')
  | (some (p, v), st', t') => (some (p, v), st'.push ⟨pos, p⟩, t')

/-- Embedding of `Positive::try_parse_with` (`predefined_node/mod.rs`):
snapshot, attempt the inner matcher under `positive_during`, restore the
stack regardless of the outcome, and never advance the position. -/
def New.Positive {α : Type} (N : MatcherN α) : MatcherN α := fun s pos st t =>
  let t1 := { t with mode := TMode.positive }
  match N s pos st.snapshot t1 with
  | (some (_, c), st2, t2) => (some (pos, c), st2.restore, { t2 with mode := t.mode })
  | (none, st2, t2) => (none, st2.restore, { t2 with mode := t.mode })

/-- Embedding of `restore_on_none` (`predefined_node/mod.rs`): snapshot,
run the action; commit the snapshot on success, roll back on failure. -/
def restoreOnNone {β : Type} (st : Stack)
    (f : Stack → Option β × Stack × TrackerN) : Option β × Stack × TrackerN :=
  match f st.snapshot with
  | (some v, st2, t2) => (some v, st2.clearSnapshot, t2)
  | (none, st2, t2) => (none, st2.restore, t2)

/-- Embedding of the `TypedNode` impl for `Option<T>` (`typed_node.rs`):
attempt the inner matcher under `restore_on_none`; wrap a success, and turn
a failure into a success with no content at the original position. -/
def New.optionNode {α : Type} (T : MatcherN α) : MatcherN (Option α) :=
  fun s pos st t =>
    match restoreOnNone st (fun st' => T s pos st' t) with
    | (some (p, v), st', t') => (some (p, some v), st', t')
    | (none, st', t') => (some (pos, none), st', t')

/-- Embedding of the `TypedNode` impl for `(T1, T2)` (`typed_node.rs`):
run the two matchers in sequence with no skipping in between. -/
def New.pairNode {α β : Type} (T1 : MatcherN α) (T2 : MatcherN β) :
    MatcherN (α × β) := fun s pos st t =>
  match T1 s pos st t with
  | (none, st1, t1) => (none, st1, t1)
  | (some (p1, v1), st1, t1) =>
    match T2 s p1 st1 t1 with
    | (none, st2, t2) => (none, st2, t2)
    | (some (p2, v2), st2, t2) => (some (p2, (v1, v2)), st2, t2)

/-- A matcher preserves the snapshot-marker list: true of every combinator
of the engine, whose stack effects are pushes/pops balanced by its own
snapshot discipline (§3 requires markers to be resolved in LIFO order by
their creator). -/
def PreservesSnapshots {α : Type} (T : MatcherN α) : Prop :=
  ∀ s pos st t, ((T s pos st t).2.1).snapshots = st.snapshots

/-- Failure labels of the older generation's tracker: expected rules from
positive/negative contexts, the stack/slice/repetition failure classes of
§7, and rule nesting markers (§4.3 `enter_rule`). -/
inductive OLabel where
  | posRule (r : Nat)
  | negRule (r : Nat)
  | emptyStack
  | repeatTooMany
  | outOfBound (start : Int) (stop : Option Int)
  | inRule (r : Nat)
deriving DecidableEq, Repr

/-- Modelled from the spec: `tracker.rs` is not under `src/`. The older
generation's tracker value, carried in the `Err` channel of
`try_parse_with`: a furthest offset plus the labels recorded there (§3,
§4.3). Rule identities are modelled as natural numbers. -/
structure TrackerO where
  pos : Nat
  labels : List OLabel
deriving DecidableEq, Repr

/-- Embedding of `Tracker::new`: a plain failure at a position, no label. -/
def TrackerO.new (p : Nat) : TrackerO :=
  ⟨p, []⟩

/-- Embedding of `Tracker::new_positive`: expected-rule failure. -/
def TrackerO.newPositive (r : Nat) (p : Nat) : TrackerO :=
  ⟨p, [.posRule r]⟩

/-- Embedding of `Tracker::new_negative`: unexpected-rule failure. -/
def TrackerO.newNegative (r : Nat) (p : Nat) : TrackerO :=
  ⟨p, [.negRule r]⟩

/-- Embedding of `Tracker::EmptyStack`. -/
def TrackerO.emptyStackAt (p : Nat) : TrackerO :=
  ⟨p, [.emptyStack]⟩

/-- Embedding of `Tracker::RepeatTooManyTimes`. -/
def TrackerO.repeatTooManyTimes (p : Nat) : TrackerO :=
  ⟨p, [.repeatTooMany]⟩

/-- Embedding of `Tracker::SliceOutOfBound`. -/
def TrackerO.sliceOutOfBound (a : Int) (b : Option Int) (p : Nat) : TrackerO :=
  ⟨p, [.outOfBound a b]⟩

/-- Embedding of `Tracker::merge` per §4.3: keep whichever tracker reached
the further offset; at equal offsets, union the label sets. -/
def TrackerO.merge (t1 t2 : TrackerO) : TrackerO :=
  if t2.pos < t1.pos then t1
  else if t1.pos < t2.pos then t2
  else ⟨t1.pos, t1.labels ++ t2.labels⟩

/-- Embedding of `Tracker::nest` per §4.7: nest the failure under the
wrapping rule's identity. -/
def TrackerO.nest (t : TrackerO) (r : Nat) (_ruleStart : Nat) : TrackerO :=
  { t with labels := t.labels ++ [.inRule r] }

/-- User-facing error produced at the top level (§4.3 `finish`). -/
structure ErrorO where
  pos : Nat
  labels : List OLabel
deriving DecidableEq, Repr

/-- Embedding of `Tracker::collect`: convert final tracker state into the
user-facing error. -/
def TrackerO.collect (t : TrackerO) : ErrorO :=
  ⟨t.pos, t.labels⟩

/-- A matcher of the older engine generation:
`TypedNode::try_parse_with::<ATOMIC, Rule>(input, stack)` from the flat
`predefined_node.rs`. Arguments: the input buffer, the ambient atomicity
flag, the ambient rule identity, the position, and the stack (mutable, so
returned alongside even on failure). -/
abbrev MatcherO (α : Type) : Type :=
  List Char → Bool → Nat → Nat → Stack → Except TrackerO (Nat × α) × Stack

/-- A never-failing node of the older generation
(`NeverFailedTypedNode::parse_with`). -/
abbrev NeverFailedO : Type :=
  List Char → Bool → Nat → Nat → Stack → Nat × Stack

/-- Embedding of `Str::try_parse_with` (flat `predefined_node.rs`): match
the constant literal; on failure, `Err(Tracker::new(input))`. -/
def Old.Str (lit : List Char) : MatcherO Unit := fun s _ _ pos st =>
  if matchString s pos lit then (.ok (pos + lit.length, ()), st)
  else (.error (TrackerO.new pos), st)

/-- Embedding of `CharRange::try_parse_with` (flat `predefined_node.rs`):
consume one character within the inclusive bounds; on failure,
`Err(Tracker::new_positive(Rule::RULE, input))`. -/
def Old.CharRange (mn mx : Char) : MatcherO Char := fun s _ rule pos st =>
  match s.drop pos with
  | c :: _ =>
    if mn ≤ c ∧ c ≤ mx then (.ok (pos + 1, c), st)
    else (.error (TrackerO.newPositive rule pos), st)
  | [] => (.error (TrackerO.newPositive rule pos), st)

/-- Embedding of `EOI::try_parse_with` (flat `predefined_node.rs`): succeed
exactly at end of input, else record the ambient rule. -/
def Old.EOI : MatcherO Unit := fun s _ rule pos st =>
  if pos = s.length then (.ok (pos, ()), st)
  else (.error (TrackerO.newPositive rule pos), st)

/-- Embedding of `AlwaysFail::try_parse_with` (flat `predefined_node.rs`). -/
def Old.AlwaysFail : MatcherO Unit := fun _ _ _ pos st =>
  (.error (TrackerO.new pos), st)

/-- Embedding of `Opt::try_parse_with` (flat `predefined_node.rs`): wrap
the inner success, and turn an inner failure into a success with no
content at the original position. The stack is passed straight through:
this version performs no snapshotting. -/
def Old.Opt {α : Type} (T : MatcherO α) : MatcherO (Option α) :=
  fun s a r pos st =>
    match T s a r pos st with
    | (.ok (p, v), st') => (.ok (p, some v), st')
    | (.error _, st') => (.ok (pos, none), st')

/-- Embedding of `Push::try_parse_with` (flat `predefined_node.rs`): run
the inner matcher and push the span it consumed. -/
def Old.Push {α : Type} (T : MatcherO α) : MatcherO α := fun s a r pos st =>
  match T s a r pos st with
  | (.ok (p, v), st') => (.ok (p, v), st'.push ⟨pos, p⟩)
  | (.error e, st') => (.error e, st')

/-- Embedding of `Seq::try_parse_with` (flat `predefined_node.rs`): first
child, then the `IGNORED` helper, then the second child; any child failure
fails the sequence immediately. -/
def Old.Seq {α β : Type} (T1 : MatcherO α) (T2 : MatcherO β)
    (IGN : NeverFailedO) : MatcherO (α × β) := fun s a r pos st =>
  match T1 s a r pos st with
  | (.error e, st1) => (.error e, st1)
  | (.ok (p1, v1), st1) =>
    let pi := IGN s a r p1 st1
    match T2 s a r pi.1 pi.2 with
    | (.error e, st2) => (.error e, st2)
    | (.ok (p2, v2), st2) => (.ok (p2, (v1, v2)), st2)

/-- Embedding of `Choice::try_parse_with` (flat `predefined_node.rs`): try
the first alternative; on its failure try the second from the original
position; if both fail, merge the two trackers. `Sum.inl` plays the role
of the `First` variant and `Sum.inr` of `Second`. -/
def Old.Choice {α β : Type} (T1 : MatcherO α) (T2 : MatcherO β) :
    MatcherO (α ⊕ β) := fun s a r pos st =>
  match T1 s a r pos st with
  | (.ok (p, v), st1) => (.ok (p, .inl v), st1)
  | (.error e1, st1) =>
    match T2 s a r pos st1 with
    | (.ok (p, v), st2) => (.ok (p, .inr v), st2)
    | (.error e2, st2) => (.error (e1.merge e2), st2)

/-- Embedding of `AtomicRule::try_parse_with` (flat `predefined_node.rs`):
run the body with the atomicity flag forced to true and the wrapped rule
identity; nest failures under that identity. -/
def Old.AtomicRule {α : Type} (rule : Nat) (T : MatcherO α) : MatcherO α :=
  fun s _ _ pos st =>
    match T s true rule pos st with
    | (.ok x, st') => (.ok x, st')
    | (.error e, st') => (.error (e.nest rule pos), st')

/-- Embedding of `NonAtomicRule::try_parse_with` (flat
`predefined_node.rs`): run the body with the atomicity flag forced to
false; nest failures. -/
def Old.NonAtomicRule {α : Type} (rule : Nat) (T : MatcherO α) : MatcherO α :=
  fun s _ _ pos st =>
    match T s false rule pos st with
    | (.ok x, st') => (.ok x, st')
    | (.error e, st') => (.error (e.nest rule pos), st')

/-- Embedding of `Rule::try_parse_with` (flat `predefined_node.rs`): run
the body with the ambient atomicity flag unchanged; nest failures. -/
def Old.Rule {α : Type} (rule : Nat) (T : MatcherO α) : MatcherO α :=
  fun s a _ pos st =>
    match T s a rule pos st with
    | (.ok x, st') => (.ok x, st')
    | (.error e, st') => (.error (e.nest rule pos), st')

/-- Fueled embedding of one inner `while let Ok(..) = M::try_parse_with::<true, _>`
loop of `Ign::parse_with` (flat `predefined_node.rs`): repeat `M` (forced
atomic) while it matches, keeping the position of the last success and the
stack as left by every attempt (including the final failed one), and
raising the progress flag if anything matched. `none` means the fuel ran
out before `M` failed. -/
def Old.whileOkF {α : Type} (M : MatcherO α) (s : List Char) (rule : Nat) :
    Nat → Nat → Stack → Bool → Option (Nat × Stack × Bool)
  | 0, _, _, _ => none
  | fuel + 1, pos, st, flag =>
    match M s true rule pos st with
    | (.ok (p, _), st') => Old.whileOkF M s rule fuel p st' true
    | (.error _, st') => some (pos, st', flag)

/-- Fueled embedding of the outer `while flag` loop of `Ign::parse_with`
(flat `predefined_node.rs`): run the `WHITESPACE` loop then the `COMMENT`
loop and repeat while either made progress. -/
def Old.ignLoopF {α β : Type} (W : MatcherO α) (C : MatcherO β)
    (s : List Char) (rule : Nat) : Nat → Nat → Stack → Option (Nat × Stack)
  | 0, _, _ => none
  | fuel + 1, pos, st => do
    let (p1, st1, f1) ← Old.whileOkF W s rule (fuel + 1) pos st false
    let (p2, st2, f2) ← Old.whileOkF C s rule (fuel + 1) p1 st1 f1
    if f2 then Old.ignLoopF W C s rule fuel p2 st2 else some (p2, st2)

/-- Fueled embedding of `Ign::parse_with` (flat `predefined_node.rs`): if
the ambient atomicity flag is true, return immediately with the position
unchanged; otherwise run the skipping loops. The fuel only bounds the
loops; every use below is shown to stay within it. -/
def Old.IgnF {α β : Type} (W : MatcherO α) (C : MatcherO β) (fuel : Nat) :
    List Char → Bool → Nat → Nat → Stack → Option (Nat × Stack) :=
  fun s atomic rule pos st =>
    if atomic then some (pos, st)
    else Old.ignLoopF W C s rule fuel pos st

/-- Total never-failing wrapper around `Old.IgnF` used where the source
passes `Ign` as an `IGNORED` generic argument; the default branch is dead
on every input used below (the fuel is shown sufficient there). -/
def Old.IgnD {α β : Type} (W : MatcherO α) (C : MatcherO β) (fuel : Nat) :
    NeverFailedO := fun s atomic rule pos st =>
  (Old.IgnF W C fuel s atomic rule pos st).getD (pos, st)

/-- Position/stack before an iteration of the `Rep` loop: on iterations
after the first, the `IGNORED` helper runs first (flat
`predefined_node.rs`). -/
def Old.repIgn (IGN : NeverFailedO) (s : List Char) (a : Bool)
    (r i pos : Nat) (st : Stack) : Nat × Stack :=
  if i = 0 then (pos, st) else IGN s a r pos st

/-- Fueled embedding of the loop of `Rep::try_parse_with` (flat
`predefined_node.rs`): on iterations after the first run `IGNORED`; attempt
the inner matcher; a failure ends the loop successfully with the collected
results; a success is appended, and once `i` exceeds 1024 the whole
repetition fails with `Tracker::RepeatTooManyTimes`. `none` means the fuel
ran out first. -/
def Old.repLoopF {α : Type} (T : MatcherO α) (IGN : NeverFailedO)
    (s : List Char) (a : Bool) (r : Nat) :
    Nat → Nat → Nat → Stack → List α →
    Option (Except TrackerO (Nat × List α) × Stack)
  | 0, _, _, _, _ => none
  | fuel + 1, i, pos, st, acc =>
    match T s a r (Old.repIgn IGN s a r i pos st).1
        (Old.repIgn IGN s a r i pos st).2 with
    | (.error _, st') =>
      some (.ok ((Old.repIgn IGN s a r i pos st).1, acc.reverse), st')
    | (.ok (p', v), st') =>
      if 1024 < i + 1 then some (.error (TrackerO.repeatTooManyTimes p'), st')
      else Old.repLoopF T IGN s a r fuel (i + 1) p' st' (v :: acc)

/-- Embedding of `Rep::try_parse_with` (flat `predefined_node.rs`) through
the fueled loop; fuel 1026 always suffices (theorem `C4_rep_terminates`),
so the default branch is dead. -/
def Old.Rep {α : Type} (T : MatcherO α) (IGN : NeverFailedO) :
    MatcherO (List α) := fun s a r pos st =>
  (Old.repLoopF T IGN s a r 1026 0 pos st []).getD
    (.error (TrackerO.repeatTooManyTimes pos), st)

/-- Embedding of the top-level `parse` entry point (flat
`predefined_node.rs`): fresh stack; run the root matcher non-atomically;
run `IGNORED` once more; then require `EOI`; convert the tracker of a
failure into the user-facing error. -/
def Old.parse {α : Type} (root : MatcherO α) (IGN : NeverFailedO)
    (ruleR ruleEOI : Nat) (s : List Char) : Except ErrorO α :=
  let st0 : Stack := ⟨[], []⟩
  match root s false ruleR 0 st0 with
  | (.error e, _) => .error e.collect
  | (.ok (p1, res), st1) =>
    let pi := IGN s false ruleEOI p1 st1
    match Old.EOI s false ruleEOI pi.1 pi.2 with
    | (.error e, _) => .error e.collect
    | (.ok _, _) => .ok res

/-- Embedding of `parse_without_ignore` (flat `predefined_node.rs`): as
`parse` but without the extra `IGNORED` run before the `EOI` check. -/
def Old.parseWithoutIgnore {α : Type} (root : MatcherO α)
    (ruleR ruleEOI : Nat) (s : List Char) : Except ErrorO α :=
  let st0 : Stack := ⟨[], []⟩
  match root s false ruleR 0 st0 with
  | (.error e, _) => .error e.collect
  | (.ok (p1, res), st1) =>
    match Old.EOI s false ruleEOI p1 st1 with
    | (.error e, _) => .error e.collect
    | (.ok _, _) => .ok res

/-- Concatenated text of a list of spans, in list order. -/
def spansText (s : List Char) (spans : List Span) : List Char :=
  (spans.map (spanStr s)).flatten

lemma spansText_nil (s : List Char) : spansText s [] = [] := rfl

lemma spansText_cons (s : List Char) (sp : Span) (rest : List Span) :
    spansText s (sp :: rest) = spanStr s sp ++ spansText s rest := by
  simp [spansText]

lemma isPrefixOf_append_eq (a b l : List Char) :
    (a ++ b).isPrefixOf l = (a.isPrefixOf l && b.isPrefixOf (l.drop a.length)) := by
  induction a generalizing l with
  | nil => simp [List.isPrefixOf]
  | cons x xs ih =>
    cases l with
    | nil => simp [List.isPrefixOf]
    | cons y ys => simp [List.isPrefixOf, ih, Bool.and_assoc]

lemma matchString_append (s : List Char) (pos : Nat) (a b : List Char) :
    matchString s pos (a ++ b) =
      (matchString s pos a && matchString s (pos + a.length) b) := by
  unfold matchString
  rw [isPrefixOf_append_eq, List.drop_drop]

lemma matchString_nil (s : List Char) (pos : Nat) :
    matchString s pos [] = true := by simp [matchString]

lemma peekSpansGo_concat (s : List Char) (spans : List Span) : ∀ pos,
    New.peekSpansGo s pos spans =
      if matchString s pos (spansText s spans) then
        some (pos + (spansText s spans).length)
      else none := by
  induction spans with
  | nil => intro pos; simp [New.peekSpansGo, spansText_nil, matchString_nil]
  | cons sp rest ih =>
    intro pos
    rw [spansText_cons]
    by_cases h : matchString s pos (spanStr s sp)
    · simp only [New.peekSpansGo, h, if_true, ih, matchString_append, h,
        Bool.true_and, List.length_append]
      by_cases h2 : matchString s (pos + (spanStr s sp).length) (spansText s rest)
      · simp [h2, Nat.add_assoc]
      · simp [h2]
    · simp only [New.peekSpansGo, h, if_false]
      rw [matchString_append]
      simp [h]

/-- C9: on an empty backreference stack, `PEEK_ALL` and `POP_ALL` succeed
at every position, consume no input and return the empty span at the
current position, recording no empty-stack error; `PEEK`, `POP` and `DROP`
instead fail and record an empty-stack error at the current position. -/
theorem C9_peek_all_pop_all_empty_stack (s : List Char) (pos : Nat)
    (st : Stack) (t : TrackerN) (h : st.entries = []) :
    New.PEEK_ALL s pos st t = (some (pos, ⟨pos, pos⟩), st, t) ∧
    New.POP_ALL s pos st t = (some (pos, ⟨pos, pos⟩), st, t) ∧
    New.PEEK s pos st t = (none, st, t.emptyStack pos) ∧
    New.POP s pos st t = (none, st, t.emptyStack pos) ∧
    New.DROP s pos st t = (none, st, t.emptyStack pos) := by
  obtain ⟨e, sn⟩ := st
  subst h
  refine ⟨?_, ?_, ?_, ?_, ?_⟩ <;>
    simp [New.PEEK_ALL, New.POP_ALL, New.PEEK, New.POP, New.DROP,
      New.peekSpans, New.peekSpansGo, Stack.slice, Stack.len, Stack.peek,
      Stack.pop]

/-- Witness for C9 at a concrete empty stack and nonzero position. -/
theorem C9_peek_all_pop_all_empty_stack_witness :
    New.PEEK_ALL "xy".toList 1 ⟨[], []⟩ (TrackerN.new 0) =
      (some (1, ⟨1, 1⟩), ⟨[], []⟩, TrackerN.new 0) ∧
    New.DROP "xy".toList 1 ⟨[], []⟩ (TrackerN.new 0) =
      (none, ⟨[], []⟩, (TrackerN.new 0).emptyStack 1) := by
  have h := C9_peek_all_pop_all_empty_stack "xy".toList 1 ⟨[], []⟩
    (TrackerN.new 0) rfl
  exact ⟨h.1, h.2.2.2.2⟩

/-- C10: whenever the constant slice indices resolve against the current
stack length to a range with end ≤ start, `PeekSlice` succeeds at every
position, consumes no input, records no out-of-bound error and leaves the
stack (and tracker) unchanged. -/
theorem C10_peekslice_empty_range (start stop : Int) (s : List Char)
    (pos : Nat) (st : Stack) (t : TrackerN) (a b : Nat) :
    (constrainIdxs start (some stop) st.len = some (a, b) → b ≤ a →
      New.PeekSlice2 start stop s pos st t = (some (pos, ()), st, t)) ∧
    (constrainIdxs start none st.len = some (a, b) → b ≤ a →
      New.PeekSlice1 start s pos st t = (some (pos, ()), st, t)) := by
  constructor
  · intro h hba
    simp [New.PeekSlice2, New.stackSlice, h, hba, New.peekSpans,
      New.peekSpansGo]
  · intro h hba
    simp [New.PeekSlice1, New.stackSlice, h, hba, New.peekSpans,
      New.peekSpansGo]

/-- Witness for C10 with the resolved empty range 0..0 on an empty stack. -/
theorem C10_peekslice_empty_range_witness :
    constrainIdxs 0 (some 0) (Stack.len ⟨[], []⟩) = some (0, 0) ∧
    New.PeekSlice2 0 0 "xy".toList 1 ⟨[], []⟩ (TrackerN.new 0) =
      (some (1, ()), ⟨[], []⟩, TrackerN.new 0) := by
  refine ⟨by decide, ?_⟩
  exact (C10_peekslice_empty_range 0 0 "xy".toList 1 ⟨[], []⟩
    (TrackerN.new 0) 0 0).1 (by decide) (by decide)

/-- C8 counterexample: a failing case-sensitive literal matcher records
nothing in the failure tracker. `Str "ab"` fails on input `"xy"` at
position 0 and returns the tracker exactly as given — still with an empty
label list, in particular with no expected-literal label at the current
position; `Insens` behaves the same. This refutes the claim that a failed
literal matcher records an "expected literal X" label in the tracker. -/
theorem C8_literal_label_counterexample :
    New.Str "ab".toList "xy".toList 0 ⟨[], []⟩ (TrackerN.new 0) =
      (none, ⟨[], []⟩, TrackerN.new 0) ∧
    New.Insens "ab".toList "xy".toList 0 ⟨[], []⟩ (TrackerN.new 0) =
      (none, ⟨[], []⟩, TrackerN.new 0) ∧
    (TrackerN.new 0).labels = [] := by
  refine ⟨by decide, by decide, rfl⟩

/-- C8 amended: when `Str` or `Insens` fails to match at the current
position, it simply returns failure — the tracker (and the stack) are left
completely unchanged, and no label of any kind is recorded; error
attribution is performed by enclosing wrappers, not by the literal
matchers. -/
theorem C8_literal_failure_amended (lit s : List Char) (pos : Nat)
    (st : Stack) (t : TrackerN) :
    (matchString s pos lit = false → New.Str lit s pos st t = (none, st, t)) ∧
    (insensPrefix lit (s.drop pos) = false →
      New.Insens lit s pos st t = (none, st, t)) := by
  constructor
  · intro h; simp [New.Str, h]
  · intro h; simp [New.Insens, h]

/-- Witness for C8 amended at the concrete failing literal "ab" on "xy". -/
theorem C8_literal_failure_amended_witness :
    New.Str "ab".toList "xy".toList 0 ⟨[], [[]]⟩ (TrackerN.new 5) =
      (none, ⟨[], [[]]⟩, TrackerN.new 5) :=
  (C8_literal_failure_amended "ab".toList "xy".toList 0 ⟨[], [[]]⟩
    (TrackerN.new 5)).1 (by decide)

/-- C1: the full-input entry point succeeds exactly when the root matcher
succeeds on a prefix from position 0 and, after one further run of the
`IGNORED` helper, the resulting position is exactly the end of input; any
unconsumed suffix makes it fail. `parse_without_ignore` is the same with
no `IGNORED` run, so the root must reach the end itself. -/
theorem C1_parse_requires_end_of_input {α : Type} (root : MatcherO α)
    (IGN : NeverFailedO) (rR rE : Nat) (s : List Char) :
    ((∃ v, Old.parse root IGN rR rE s = .ok v) ↔
      ∃ p res st1, root s false rR 0 ⟨[], []⟩ = (.ok (p, res), st1) ∧
        (IGN s false rE p st1).1 = s.length) ∧
    ((∃ v, Old.parseWithoutIgnore root rR rE s = .ok v) ↔
      ∃ res st1, root s false rR 0 ⟨[], []⟩ = (.ok (s.length, res), st1)) := by
  constructor
  · unfold Old.parse
    rcases hr : root s false rR 0 ⟨[], []⟩ with ⟨fst, st1⟩
    cases fst with
    | error e => simp [hr]
    | ok pr =>
      obtain ⟨p1, res1⟩ := pr
      by_cases hE : (IGN s false rE p1 st1).1 = s.length
      · simp [hr, Old.EOI, hE]
        exact ⟨p1, res1, st1, ⟨⟨rfl, rfl⟩, rfl⟩, hE⟩
      · simp [hr, Old.EOI, hE]
  · unfold Old.parseWithoutIgnore
    rcases hr : root s false rR 0 ⟨[], []⟩ with ⟨fst, st1⟩
    cases fst with
    | error e => simp [hr]
    | ok pr =>
      obtain ⟨p1, res1⟩ := pr
      by_cases hE : p1 = s.length
      · subst hE; simp [hr, Old.EOI]
      · simp [hr, Old.EOI, hE]

/-- C6: ordered choice tries the first alternative and, on its success,
returns the First-tagged result without the second alternative influencing
the outcome in any way; on its failure it tries the second from the
original position (on the stack as left by the failed first attempt); if
both fail, it fails with the two failure trackers merged. Consequently
`Choice(Literal "a", Literal "ab")` on input `"ab"` matches only `"a"`. -/
theorem C6_ordered_choice {α β : Type} (T1 : MatcherO α) (T2 T2' : MatcherO β)
    (s : List Char) (a : Bool) (r pos : Nat) (st : Stack) :
    (∀ p v st1, T1 s a r pos st = (.ok (p, v), st1) →
      Old.Choice T1 T2 s a r pos st = (.ok (p, .inl v), st1) ∧
      Old.Choice T1 T2 s a r pos st = Old.Choice T1 T2' s a r pos st) ∧
    (∀ e1 st1, T1 s a r pos st = (.error e1, st1) →
      (∀ p v st2, T2 s a r pos st1 = (.ok (p, v), st2) →
        Old.Choice T1 T2 s a r pos st = (.ok (p, .inr v), st2)) ∧
      (∀ e2 st2, T2 s a r pos st1 = (.error e2, st2) →
        Old.Choice T1 T2 s a r pos st = (.error (e1.merge e2), st2))) ∧
    Old.Choice (Old.Str ['a']) (Old.Str ['a', 'b']) "ab".toList a r 0
        ⟨[], []⟩ =
      (.ok (1, .inl ()), ⟨[], []⟩) := by
  refine ⟨?_, ?_, ?_⟩
  · intro p v st1 h
    constructor <;> simp [Old.Choice, h]
  · intro e1 st1 h
    constructor
    · intro p v st2 h2
      simp [Old.Choice, h, h2]
    · intro e2 st2 h2
      simp [Old.Choice, h, h2]
  · rfl

/-- Witness for C6 with a succeeding and a failing first alternative. -/
theorem C6_ordered_choice_witness :
    Old.Choice (Old.Str ['a']) (Old.Str ['b']) "a".toList false 0 0 ⟨[], []⟩ =
      (.ok (1, .inl ()), ⟨[], []⟩) ∧
    Old.Choice (Old.Str ['b']) (Old.Str ['a']) "a".toList false 0 0 ⟨[], []⟩ =
      (.ok (1, .inr ()), ⟨[], []⟩) ∧
    Old.Choice (Old.Str ['b']) (Old.Str ['c']) "a".toList false 0 0 ⟨[], []⟩ =
      (.error ((TrackerO.new 0).merge (TrackerO.new 0)), ⟨[], []⟩) := by
  refine ⟨?_, ?_, ?_⟩
  · exact ((C6_ordered_choice (Old.Str ['a']) (Old.Str ['b']) (Old.Str ['b'])
      "a".toList false 0 0 ⟨[], []⟩).1 1 () ⟨[], []⟩ rfl).1
  · exact ((C6_ordered_choice (Old.Str ['b']) (Old.Str ['a']) (Old.Str ['a'])
      "a".toList false 0 0 ⟨[], []⟩).2.1 (TrackerO.new 0) ⟨[], []⟩
      rfl).1 1 () ⟨[], []⟩ rfl
  · exact ((C6_ordered_choice (Old.Str ['b']) (Old.Str ['c']) (Old.Str ['c'])
      "a".toList false 0 0 ⟨[], []⟩).2.1 (TrackerO.new 0) ⟨[], []⟩
      rfl).2 (TrackerO.new 0) ⟨[], []⟩ rfl

/-- C7: with the ambient atomicity flag true, the `Ignored` helper returns
the position unchanged and cannot fail, for any `WHITESPACE`/`COMMENT` and
any fuel; with the flag false it loops attempting `WHITESPACE` (an atomic
rule over the space character below) then `COMMENT`, skipping while either
matches, and never fails. Consequently an atomic rule whose body is
`Sequence(Literal "a", Literal "b")` fails on `"a b"` (no skipping inside),
while the same body under a non-atomic rule succeeds on `"a b"`. -/
theorem C7_ignored_and_atomicity :
    (∀ {α β : Type} (W : MatcherO α) (C : MatcherO β) (fuel : Nat)
      (s : List Char) (rule pos : Nat) (st : Stack),
      Old.IgnF W C fuel s true rule pos st = some (pos, st)) ∧
    Old.parseWithoutIgnore
        (Old.AtomicRule 7 (Old.Seq (Old.Str ['a']) (Old.Str ['b'])
          (Old.IgnD (Old.AtomicRule 100 (Old.CharRange ' ' ' '))
            Old.AlwaysFail 20))) 7 99 "a b".toList =
      .error ⟨1, [.inRule 7]⟩ ∧
    Old.parse
        (Old.NonAtomicRule 7 (Old.Seq (Old.Str ['a']) (Old.Str ['b'])
          (Old.IgnD (Old.AtomicRule 100 (Old.CharRange ' ' ' '))
            Old.AlwaysFail 20)))
        (Old.IgnD (Old.AtomicRule 100 (Old.CharRange ' ' ' '))
          Old.AlwaysFail 20) 7 99 "a b".toList = .ok ((), ()) ∧
    Old.IgnF (Old.AtomicRule 100 (Old.CharRange ' ' ' '))
        (Old.AtomicRule 101 (Old.CharRange '\t' '\t')) 20
        " \t \tx".toList false 5 0 ⟨[], []⟩ = some (4, ⟨[], []⟩) := by
  refine ⟨?_, rfl, rfl, rfl⟩
  intro α β W C fuel s rule pos st
  simp [Old.IgnF]

lemma repLoopF_total {α : Type} (T : MatcherO α) (IGN : NeverFailedO)
    (s : List Char) (a : Bool) (r : Nat) :
    ∀ (fuel i pos : Nat) (st : Stack) (acc : List α), 1025 - i < fuel →
    ∃ out, Old.repLoopF T IGN s a r fuel i pos st acc = some out ∧
      ((∃ p l st', out = (.ok (p, l), st')) ∨
       (∃ p st', out = (.error (TrackerO.repeatTooManyTimes p), st'))) := by
  intro fuel
  induction fuel with
  | zero => intro i pos st acc h; omega
  | succ fuel ih =>
    intro i pos st acc h
    rcases hT : T s a r (Old.repIgn IGN s a r i pos st).1
        (Old.repIgn IGN s a r i pos st).2 with ⟨res, st'⟩
    cases res with
    | error e =>
      have step : Old.repLoopF T IGN s a r (fuel + 1) i pos st acc =
          some (.ok ((Old.repIgn IGN s a r i pos st).1, acc.reverse), st') := by
        simp only [Old.repLoopF, hT]
      exact ⟨_, step, Or.inl ⟨_, _, _, rfl⟩⟩
    | ok pv =>
      obtain ⟨p', v⟩ := pv
      by_cases hc : 1024 < i + 1
      · have step : Old.repLoopF T IGN s a r (fuel + 1) i pos st acc =
            some (.error (TrackerO.repeatTooManyTimes p'), st') := by
          simp only [Old.repLoopF, hT, hc, if_true]
        exact ⟨_, step, Or.inr ⟨p', st', rfl⟩⟩
      · have step : Old.repLoopF T IGN s a r (fuel + 1) i pos st acc =
            Old.repLoopF T IGN s a r fuel (i + 1) p' st' (v :: acc) := by
          simp only [Old.repLoopF, hT, hc, if_false]
        rw [step]
        exact ih (i + 1) p' st' (v :: acc) (by omega)

set_option maxRecDepth 10000 in
/-- C4: for every inner matcher and every starting state, the `Rep` loop
terminates within its fuel: either the inner matcher eventually fails and
the repetition succeeds with the results collected so far (zero matches
included, the discarded failure not surfaced), or the cap of 1024
successful iterations is exceeded and the whole repetition fails with the
`RepeatTooManyTimes` error — in particular, repeating the always-succeeding
`Optional(Literal "x")` over `"xxxy"` does not diverge but trips the cap. -/
theorem C4_rep_terminates :
    (∀ {α : Type} (T : MatcherO α) (IGN : NeverFailedO) (s : List Char)
      (a : Bool) (r pos : Nat) (st : Stack),
      ∃ out, Old.repLoopF T IGN s a r 1026 0 pos st [] = some out ∧
        ((∃ p l st', out = (.ok (p, l), st')) ∨
         (∃ p st', out = (.error (TrackerO.repeatTooManyTimes p), st')))) ∧
    Old.repLoopF (Old.Opt (Old.Str ['x'])) (fun _ _ _ p st => (p, st))
        "xxxy".toList false 0 1026 0 0 ⟨[], []⟩ [] =
      some (.error (TrackerO.repeatTooManyTimes 3), ⟨[], []⟩) := by
  constructor
  · intro α T IGN s a r pos st
    exact repLoopF_total T IGN s a r 1026 0 pos st [] (by omega)
  · rfl

/-- C3 counterexample: with spans for "a", "b", "c" pushed in that order
(entries ⟨0,1⟩, ⟨1,2⟩, ⟨2,3⟩ of the buffer "abccba") and the remaining
input being "cba" at position 3, `PeekSlice(0, None)` fails — whereas the
claim (matching the concatenation "cba" in top-to-bottom order) requires it
to succeed; and `PeekSlice(-1, None)` succeeds by consuming "c" — whereas
the claim requires it to match only "a", which would fail here. The slice
is matched bottom-to-top, not top-to-bottom. -/
theorem C3_peekslice_order_counterexample :
    spanStr "abccba".toList ⟨0, 1⟩ = ['a'] ∧
    spanStr "abccba".toList ⟨1, 2⟩ = ['b'] ∧
    spanStr "abccba".toList ⟨2, 3⟩ = ['c'] ∧
    "abccba".toList.drop 3 = ['c', 'b', 'a'] ∧
    New.PeekSlice1 0 "abccba".toList 3 ⟨[⟨0, 1⟩, ⟨1, 2⟩, ⟨2, 3⟩], []⟩
        (TrackerN.new 0) =
      (none, ⟨[⟨0, 1⟩, ⟨1, 2⟩, ⟨2, 3⟩], []⟩, TrackerN.new 0) ∧
    New.PeekSlice1 (-1) "abccba".toList 3 ⟨[⟨0, 1⟩, ⟨1, 2⟩, ⟨2, 3⟩], []⟩
        (TrackerN.new 0) =
      (some (4, ()), ⟨[⟨0, 1⟩, ⟨1, 2⟩, ⟨2, 3⟩], []⟩, TrackerN.new 0) := by
  refine ⟨rfl, rfl, rfl, rfl, by decide, by decide⟩

/-- C3 amended: `PeekSlice` resolves its signed indices against the current
stack length; an unresolvable range records an out-of-bound error; a
resolved nonempty range is matched as the concatenation of the sub-range in
bottom-to-top (first-pushed-first) order — so after pushing "a", "b", "c",
`PeekSlice(0, None)` matches "abc" and `PeekSlice(-1, None)` matches "c" —
consuming exactly that text on success, never modifying the stack, and
leaving the tracker unchanged whether the text matches or not. -/
theorem C3_peekslice_bottom_to_top (start : Int) (s : List Char) (pos : Nat)
    (st : Stack) (t : TrackerN) :
    (constrainIdxs start none st.len = none →
      New.PeekSlice1 start s pos st t =
        (none, st, t.outOfBound pos start none)) ∧
    (∀ a b, constrainIdxs start none st.len = some (a, b) → a < b →
      (matchString s pos (spansText s (st.slice a b)) = true →
        New.PeekSlice1 start s pos st t =
          (some (pos + (spansText s (st.slice a b)).length, ()), st, t)) ∧
      (matchString s pos (spansText s (st.slice a b)) = false →
        New.PeekSlice1 start s pos st t = (none, st, t))) := by
  constructor
  · intro h
    simp [New.PeekSlice1, New.stackSlice, h]
  · intro a b h hab
    have hba : ¬ (b ≤ a) := by omega
    constructor
    · intro hm
      simp [New.PeekSlice1, New.stackSlice, h, hba, New.peekSpans,
        peekSpansGo_concat, hm]
    · intro hm
      simp [New.PeekSlice1, New.stackSlice, h, hba, New.peekSpans,
        peekSpansGo_concat, hm]

/-- Witness for C3 amended: the "a","b","c" stack against buffer "abcabc"
at position 3 (remaining "abc") — the bottom-to-top concatenation matches. -/
theorem C3_peekslice_bottom_to_top_witness :
    New.PeekSlice1 0 "abcabc".toList 3 ⟨[⟨0, 1⟩, ⟨1, 2⟩, ⟨2, 3⟩], []⟩
        (TrackerN.new 0) =
      (some (3 + (spansText "abcabc".toList
        (Stack.slice ⟨[⟨0, 1⟩, ⟨1, 2⟩, ⟨2, 3⟩], []⟩ 0 3)).length, ()),
       ⟨[⟨0, 1⟩, ⟨1, 2⟩, ⟨2, 3⟩], []⟩, TrackerN.new 0) :=
  ((C3_peekslice_bottom_to_top 0 "abcabc".toList 3
      ⟨[⟨0, 1⟩, ⟨1, 2⟩, ⟨2, 3⟩], []⟩ (TrackerN.new 0)).2 0 3
    (by decide) (by decide)).1 (by decide)

lemma preservesSnapshots_str (lit : List Char) :
    PreservesSnapshots (New.Str lit) := by
  intro s pos st t
  unfold New.Str
  split <;> rfl

lemma preservesSnapshots_push {α : Type} (T : MatcherN α)
    (h : PreservesSnapshots T) : PreservesSnapshots (New.Push T) := by
  intro s pos st t
  have hT := h s pos st t
  unfold New.Push
  rcases hres : T s pos st t with ⟨res, st', t'⟩
  rw [hres] at hT
  cases res with
  | none => simpa using hT
  | some pv =>
    obtain ⟨p, v⟩ := pv
    simpa [Stack.push] using hT

/-- C5: `Positive(N)` succeeds exactly when its inner attempt (on the
snapshotted stack, under the positive tracker mode) succeeds; regardless of
the outcome the returned position equals the input position and the stack
is restored to exactly its state before the attempt. Consequently
`Positive(Push(Literal "a"))` followed by `PEEK` reports an empty-stack
error, whereas `Push(Literal "a")` followed by `PEEK` succeeds and matches
"a" again. -/
theorem C5_positive_lookahead :
    (∀ {α : Type} (N : MatcherN α) (s : List Char) (pos : Nat) (st : Stack)
      (t : TrackerN), PreservesSnapshots N →
      ((New.Positive N s pos st t).1.isSome =
        (N s pos st.snapshot { t with mode := TMode.positive }).1.isSome) ∧
      (∀ p c, (New.Positive N s pos st t).1 = some (p, c) → p = pos) ∧
      (New.Positive N s pos st t).2.1 = st) ∧
    New.pairNode (New.Positive (New.Push (New.Str ['a']))) New.PEEK
        "aa".toList 0 ⟨[], []⟩ (TrackerN.new 0) =
      (none, ⟨[], []⟩, ⟨0, [(.ordinary, .emptyStack)], .ordinary⟩) ∧
    New.pairNode (New.Push (New.Str ['a'])) New.PEEK
        "aa".toList 0 ⟨[], []⟩ (TrackerN.new 0) =
      (some (2, ((), ⟨1, 2⟩)), ⟨[⟨0, 1⟩], []⟩, TrackerN.new 0) := by
  refine ⟨?_, by decide, by decide⟩
  intro α N s pos st t hN
  have hsnap := hN s pos st.snapshot { t with mode := TMode.positive }
  rcases hres : N s pos st.snapshot { t with mode := TMode.positive }
    with ⟨res, st2, t2⟩
  rw [hres] at hsnap
  have hst2 : st2.snapshots = st.entries :: st.snapshots := by
    simpa [Stack.snapshot] using hsnap
  have hrestore : st2.restore = st := by
    obtain ⟨e2, sn2⟩ := st2
    simp only at hst2
    subst hst2
    simp [Stack.restore]
  cases res with
  | none =>
    have hPos : New.Positive N s pos st t =
        (none, st2.restore, { t2 with mode := t.mode }) := by
      simp only [New.Positive, hres]
    refine ⟨?_, ?_, ?_⟩ <;> simp [hPos, hres, hrestore]
  | some pc =>
    obtain ⟨p0, c⟩ := pc
    have hPos : New.Positive N s pos st t =
        (some (pos, c), st2.restore, { t2 with mode := t.mode }) := by
      simp only [New.Positive, hres]
    refine ⟨?_, ?_, ?_⟩ <;> simp [hPos, hres, hrestore]

/-- Witness for C5 with the lookahead over `Push(Literal "a")`: the stack
after `Positive` is exactly the original empty stack. -/
theorem C5_positive_lookahead_witness :
    (New.Positive (New.Push (New.Str ['a'])) "ab".toList 0 ⟨[], []⟩
      (TrackerN.new 0)).2.1 = ⟨[], []⟩ :=
  (C5_positive_lookahead.1 (New.Push (New.Str ['a'])) "ab".toList 0 ⟨[], []⟩
    (TrackerN.new 0)
    (preservesSnapshots_push _ (preservesSnapshots_str ['a']))).2.2

/-- C2 counterexample: the older `Opt` combinator performs no
snapshot/restore. With inner `Seq(Push(Literal "a"), Literal "b")` on input
"ac" (from the empty stack) the inner attempt pushes the span for "a" and
then fails; `Opt` still succeeds with an absent result at the original
position, but the stack keeps the span pushed by the failed attempt — it is
not restored to its (empty) state before the attempt, refuting the claim
for `Opt`. -/
theorem C2_opt_no_restore_counterexample :
    Old.Opt (Old.Seq (Old.Push (Old.Str ['a'])) (Old.Str ['b'])
        (fun _ _ _ p st => (p, st))) "ac".toList false 0 0 ⟨[], []⟩ =
      (.ok (0, none), ⟨[⟨0, 1⟩], []⟩) ∧
    (⟨[⟨0, 1⟩], []⟩ : Stack) ≠ (⟨[], []⟩ : Stack) :=
  ⟨rfl, by decide⟩

/-- C2 amended: the newer `Option<T>` impl (via `restore_on_none`) always
succeeds: on the inner matcher's success it returns the wrapped result at
the inner end position with the snapshot committed (inner stack mutations
kept, marker discarded); on the inner failure it returns an absent result
at the original position with the stack restored to exactly its state
before the attempt. The older `Opt` also always succeeds, but performs no
snapshotting at all, so stack mutations of a failed attempt persist. -/
theorem C2_optional_amended :
    (∀ {α : Type} (T : MatcherN α) (s : List Char) (pos : Nat) (st : Stack)
      (t : TrackerN), PreservesSnapshots T →
      (∀ p v st2 t2, T s pos st.snapshot t = (some (p, v), st2, t2) →
        New.optionNode T s pos st t =
          (some (p, some v), ⟨st2.entries, st.snapshots⟩, t2)) ∧
      (∀ st2 t2, T s pos st.snapshot t = (none, st2, t2) →
        New.optionNode T s pos st t = (some (pos, none), st, t2))) ∧
    (∀ {β : Type} (T' : MatcherO β) (s : List Char) (a : Bool) (r pos : Nat)
      (st : Stack), ∃ p v st', Old.Opt T' s a r pos st = (.ok (p, v), st')) := by
  constructor
  · intro α T s pos st t hT
    constructor
    · intro p v st2 t2 h
      have hsn := hT s pos st.snapshot t
      rw [h] at hsn
      have hst2 : st2.snapshots = st.entries :: st.snapshots := by
        simpa [Stack.snapshot] using hsn
      have hclear : st2.clearSnapshot = ⟨st2.entries, st.snapshots⟩ := by
        simp [Stack.clearSnapshot, hst2]
      simp only [New.optionNode, restoreOnNone, h, hclear]
    · intro st2 t2 h
      have hsn := hT s pos st.snapshot t
      rw [h] at hsn
      have hst2 : st2.snapshots = st.entries :: st.snapshots := by
        simpa [Stack.snapshot] using hsn
      have hrestore : st2.restore = st := by
        obtain ⟨e2, sn2⟩ := st2
        simp only at hst2
        subst hst2
        simp [Stack.restore]
      simp only [New.optionNode, restoreOnNone, h, hrestore]
  · intro β T' s a r pos st
    rcases h : T' s a r pos st with ⟨res, st'⟩
    cases res with
    | error e => exact ⟨pos, none, st', by simp [Old.Opt, h]⟩
    | ok pv =>
      obtain ⟨p, v⟩ := pv
      exact ⟨p, some v, st', by simp [Old.Opt, h]⟩

/-- Witness for C2 amended: a failing inner literal under `Option<T>`
leaves the original (empty-snapshot) stack untouched. -/
theorem C2_optional_amended_witness :
    New.optionNode (New.Str ['z']) "a".toList 0 ⟨[], []⟩ (TrackerN.new 0) =
      (some (0, none), ⟨[], []⟩, TrackerN.new 0) :=
  ((C2_optional_amended.1 (New.Str ['z']) "a".toList 0 ⟨[], []⟩
      (TrackerN.new 0) (preservesSnapshots_str ['z'])).2 ⟨[], [[]]⟩
    (TrackerN.new 0) (by decide))
